import Mathlib

/-
Verification of the Smart Compose model (`src/smart_compose/train/model.py`).

The file shallowly embeds the Python module `model.py`: the constructor
`SmartComposeModel.__init__`, the inference entry points `call` and
`prefix_aware_beam_search`, the per-step function `get_logits_and_cache`, the
initialisation function `get_initial_logits_and_cache_fn`, and the training
function `get_training_probs_and_labels`.  External numeric collaborators (the
embedding layer, the LSTM cell, the projection layer, the seq2seq decoder) are
opaque function parameters, exactly as the design treats them.  The beam-search
layer (`smart_compose/layers/beam_search.py`) and the tiling utility
(`smart_compose/utils/layer_utils.py`) are not part of the sources under
verification; where a property depends on them they are modelled from the
specification, and each such definition says so in its doc comment.
-/

namespace SmartCompose

/-- Python dict lookup (`d[k]`), modelled on an association list; a missing key
(Python `KeyError`) is `none`. -/
def dictGet {V : Type} (d : List (String × V)) (k : String) : Option V :=
  (d.find? (fun p => p.1 == k)).map (fun p => p.2)

/-- Python dict assignment (`d[k] = v`): replace the value at an existing key,
append the binding when the key is absent. -/
def dictSet {V : Type} : List (String × V) → String → V → List (String × V)
  | [], k, v => [(k, v)]
  | p :: rest, k, v => if p.1 == k then (k, v) :: rest else p :: dictSet rest k v

/-- Modelled from the spec: `tile_batch` (from `smart_compose/utils/layer_utils.py`,
not under `src/`).  The spec describes tiling as seeding `beamWidth` identical
copies of each batch row, so every row of the input batch is repeated `m`
times. -/
def tile_batch {α : Type} (t : List α) (m : Nat) : List α :=
  (t.map (fun x => List.replicate m x)).flatten

/-- Configuration of `SmartComposeModel.__init__` (model.py lines 11-46): the
direct constructor arguments together with the values the constructor reads
from the embedding layer (`vocab_size`, `num_units`, `sep_id`, `pad_id`). -/
structure ModelConfig where
  min_len : Int
  max_len : Int
  beam_width : Int
  max_decode_length : Int
  min_seq_prob : ℚ
  length_norm_power : ℚ
  vocab_size : Int
  num_units : Int
  sep_id : Int
  pad_id : Int
deriving Repr, DecidableEq

/-- The argument record passed to `beam_search.PrefixAwareBeamSearcher`
(model.py lines 54-67), in the order of that call. -/
structure SearcherParams where
  vocab_size : Int
  beam_width : Int
  length_norm_power : ℚ
  max_decode_length : Int
  sep_id : Int
  pad_id : Int
  min_seq_prob : ℚ
  min_len : Int
  max_len : Int
  num_cls : Int
  num_sep : Int
deriving Repr, DecidableEq

/-- The attribute state a freshly constructed `SmartComposeModel` holds
(model.py lines 25-67). -/
structure SmartComposeModelState where
  training_min_len : Int
  training_max_len : Int
  inference_min_len : Int
  inference_max_len : Int
  beam_width : Int
  max_decode_length : Int
  length_norm_power : ℚ
  min_seq_prob : ℚ
  num_cls_training : Int
  num_sep_training : Int
  num_cls_inference : Int
  num_sep_inference : Int
  vocab_size : Int
  num_units : Int
  sep_id : Int
  pad_id : Int
  searcher_params : SearcherParams
deriving Repr, DecidableEq

/-- Embedding of `SmartComposeModel.__init__` (model.py lines 25-67).  The
Python constructor only stores its arguments, fixes the training/inference
length and special-token counts, and builds the sublayers; it contains no
validation of any argument and can therefore not raise on out-of-range numeric
configuration, so it is a total function. -/
def SmartComposeModel.init (cfg : ModelConfig) : SmartComposeModelState :=
  { training_min_len := cfg.min_len
  , training_max_len := cfg.max_len
  , inference_min_len := 1
  , inference_max_len := cfg.max_len
  , beam_width := cfg.beam_width
  , max_decode_length := cfg.max_decode_length
  , length_norm_power := cfg.length_norm_power
  , min_seq_prob := cfg.min_seq_prob
  , num_cls_training := 1
  , num_sep_training := 1
  , num_cls_inference := 1
  , num_sep_inference := 0
  , vocab_size := cfg.vocab_size
  , num_units := cfg.num_units
  , sep_id := cfg.sep_id
  , pad_id := cfg.pad_id
  , searcher_params :=
      { vocab_size := cfg.vocab_size
      , beam_width := cfg.beam_width
      , length_norm_power := cfg.length_norm_power
      , max_decode_length := cfg.max_decode_length
      , sep_id := cfg.sep_id
      , pad_id := cfg.pad_id
      , min_seq_prob := cfg.min_seq_prob
      , min_len := 1
      , max_len := cfg.max_len
      , num_cls := 1
      , num_sep := 0 } }

/-- The configuration-validity predicate the spec claims is enforced at
construction, written from the spec's words (for comparison with
`SmartComposeModel.init`, which enforces nothing). -/
def specValidConfig (cfg : ModelConfig) : Bool :=
  (0 < cfg.vocab_size) && (0 < cfg.beam_width) && (0 < cfg.max_decode_length) &&
  (0 ≤ cfg.length_norm_power) && (0 ≤ cfg.min_seq_prob) && (cfg.min_seq_prob ≤ 1) &&
  (0 ≤ cfg.sep_id) && (cfg.sep_id < cfg.vocab_size) &&
  (0 ≤ cfg.pad_id) && (cfg.pad_id < cfg.vocab_size) &&
  (cfg.min_len ≤ cfg.max_len)

/-- A thoroughly invalid configuration: `min_len > max_len`, non-positive
`beam_width` and `max_decode_length`, `min_seq_prob` outside `[0, 1]`,
negative `length_norm_power`, empty vocabulary, out-of-range special ids. -/
def invalidConfig : ModelConfig :=
  { min_len := 5
  , max_len := 2
  , beam_width := -1
  , max_decode_length := 0
  , min_seq_prob := 2
  , length_norm_power := -1
  , vocab_size := 0
  , num_units := 8
  , sep_id := 7
  , pad_id := 9 }

/-- The argument record `_get_embedding_outputs_for_training` passes to the
embedding layer (model.py lines 151-158), apart from the sentences. -/
structure EmbeddingCallArgs where
  num_cls : Int
  num_sep : Int
  min_len : Int
  max_len : Int
deriving Repr, DecidableEq

/-- Embedding of the argument construction in
`_get_embedding_outputs_for_training` (model.py lines 151-158): the training
path hands the embedding layer `num_cls_training`, `num_sep_training`,
`_training_min_len` and `_training_max_len`. -/
def trainingEmbeddingArgs (m : SmartComposeModelState) : EmbeddingCallArgs :=
  { num_cls := m.num_cls_training
  , num_sep := m.num_sep_training
  , min_len := m.training_min_len
  , max_len := m.training_max_len }

/-- A decode cache: a Python dict from string keys to batched state tensors,
as consumed by `get_logits_and_cache`. -/
abbrev Cache (V : Type) := List (String × V)

/-- Embedding of `SmartComposeModel.get_logits_and_cache` (model.py lines
72-85).  `embedding_lookup1` is the per-row effect of
`_get_embedding_for_single_token`, `cell` the LSTM cell on a batch, and
`projection_layer` the dense output layer, all opaque.  `ids[:, i]` is column
`i` of the id matrix (rows shorter than `i + 1` read as id `0`; TensorFlow
would reject such a ragged tensor before this point).  A cache without the
`'last_state'` key would raise `KeyError` in Python, modelled as `none`. -/
def get_logits_and_cache {E V O L : Type}
    (embedding_lookup1 : Nat → E)
    (cell : List E → V → O × V)
    (projection_layer : O → L)
    (ids : List (List Nat)) (i : Nat) (cache : Cache V) : Option (L × Cache V) :=
  match dictGet cache "last_state" with
  | none => none
  | some st =>
    let embeddings := (ids.map (fun row => row.getD i 0)).map embedding_lookup1
    let stepped := cell embeddings st
    let logits := projection_layer stepped.1
    some (logits, dictSet cache "last_state" stepped.2)

/-- Embedding of `get_initial_logits_and_cache_fn` (model.py lines 87-101).
`embedding_lookup` is the embedding layer's lookup over the whole tokenized
prefix, `rnn` the Keras RNN over the full prefix returning
`(rnn_output, last_memory_state, last_carry_state)` for the single input
example, and `projection_layer` the dense output layer.  The cache binds
`'last_state'` to the pair of the tiled memory and carry states; logits and
states are tiled with `tile_batch` (spec-modelled, see `tile_batch`). -/
def get_initial_logits_and_cache_fn {E O S L : Type}
    (embedding_lookup : List Nat → E)
    (rnn : E → O × S × S)
    (projection_layer : O → L)
    (beam_width : Nat)
    (tokenized_ids : List Nat) : List L × Cache (List S × List S) :=
  let embedded_outputs := embedding_lookup tokenized_ids
  let res := rnn embedded_outputs
  let rnn_output := res.1
  let last_memory_state := res.2.1
  let last_carry_state := res.2.2
  let cache : Cache (List S × List S) :=
    [("last_state",
      (tile_batch [last_memory_state] beam_width,
       tile_batch [last_carry_state] beam_width))]
  let init_logits := projection_layer rnn_output
  (tile_batch [init_logits] beam_width, cache)

/-- Embedding of `SmartComposeModel.prefix_aware_beam_search` (model.py lines
103-116): select the target column from the input feature dict and hand it to
the (opaque) `PrefixAwareBeamSearcher`.  A missing target column is a Python
`KeyError`, modelled as `none`. -/
def prefix_aware_beam_search {T R : Type} (searcher : T → R)
    (target_column : String) (inputs : List (String × T)) : Option R :=
  (dictGet inputs target_column).map searcher

/-- Embedding of `SmartComposeModel.call` (model.py lines 69-70): it forwards
to `prefix_aware_beam_search`, accepting and ignoring `training` and `mask`
exactly as the Python code does. -/
def SmartComposeModel.call {T R M : Type} (searcher : T → R)
    (target_column : String) (inputs : List (String × T))
    (training : Bool) (mask : Option M) : Option R :=
  prefix_aware_beam_search searcher target_column inputs

/-- The record the embedding layer returns for a training batch (model.py
lines 135-144): per-example embedded sequences, encoded lengths, and
tokenized id sequences. -/
structure EmbeddingOutputs (E : Type) where
  embedded : List (List E)
  length : List Int
  tokenized_ids : List (List Nat)

/-- The record the seq2seq decoder returns (model.py line 142): per-example
`rnn_output` logit sequences and sampled ids. -/
structure DecoderOutputs (L : Type) where
  rnn_output : List (List L)
  sample_id : List (List Nat)

/-- The record `get_training_probs_and_labels` returns (model.py lines
145-149). -/
structure TrainingProbsAndLabels (L : Type) where
  label : List (List Nat)
  logit : List (List L)
  length : List Int
  rnn_output : List (List L)
  sample_id : List (List Nat)

/-- Embedding of `get_training_probs_and_labels` (model.py lines 118-149).
`embedding` is `_get_embedding_outputs_for_training` and `decoder` the
seq2seq decoder (with its initial state folded in), both opaque.  The slices:
`outputs.rnn_output[:, :-1]` drops the last time step of every row,
`tokenized_ids[:, 1:]` drops the first token of every row, and `LENGTH` is
the encoded length minus one. -/
def get_training_probs_and_labels {E L : Type}
    (embedding : List String → EmbeddingOutputs E)
    (decoder : List (List E) → List Int → DecoderOutputs L)
    (target_column : String)
    (inputs : List (String × List String)) : Option (TrainingProbsAndLabels L) :=
  (dictGet inputs target_column).map (fun sentences =>
    let eo := embedding sentences
    let outputs := decoder eo.embedded eo.length
    { label := eo.tokenized_ids.map (fun row => row.drop 1)
    , logit := outputs.rnn_output.map (fun row => row.dropLast)
    , length := eo.length.map (fun n => n - 1)
    , rnn_output := outputs.rnn_output
    , sample_id := outputs.sample_id })

/-- Modelled from the spec: the Prefix Constraint Filter's legality test
(spec §4.2; `smart_compose/layers/beam_search.py` is not under `src/`).  A
vocabulary token is legal iff it is a textual prefix of the unmatched prefix
suffix, or the prefix suffix is a textual prefix of the token's string
form. -/
def is_legal (prefixSuffix tok : String) : Bool :=
  tok.toList.isPrefixOf prefixSuffix.toList ||
    prefixSuffix.toList.isPrefixOf tok.toList

/-- Modelled from the spec: `buildMask(prefixSuffix, vocabulary)` (spec §4.2),
one legality flag per vocabulary token. -/
def buildMask (prefixSuffix : String) (vocab : List String) : List Bool :=
  vocab.map (fun tok => is_legal prefixSuffix tok)

/-- Modelled from the spec: the `EXIST_PREFIX` flag — whether any vocabulary
token is a legal first step for the typed prefix (spec §4.2). -/
def existPrefixFlag (prefixSuffix : String) (vocab : List String) : Bool :=
  (buildMask prefixSuffix vocab).any (fun b => b)

/-- Modelled from the spec: applying the mask multiplies illegal tokens'
probability by `0` before the first expansion step (spec §4.2). -/
def maskProbs (mask : List Bool) (probs : List ℚ) : List ℚ :=
  List.zipWith (fun b p => if b then p else 0) mask probs

/-- Modelled from the spec: the first decode step of the Beam Search Driver
(spec §4.4 with §4.2's filter; `beam_search.py` is not under `src/`).  Illegal
tokens' probabilities are masked to zero, and the top `beamWidth` token ids
with positive masked probability are selected best-first; a token whose masked
probability is zero is never selected. -/
def firstStepTokenIds (prefixSuffix : String) (vocab : List String)
    (probs : List ℚ) (beamWidth : Nat) : List Nat :=
  let masked := maskProbs (buildMask prefixSuffix vocab) probs
  let candidates :=
    (List.range vocab.length).filter (fun i => decide (0 < masked.getD i 0))
  (List.insertionSort (fun i j => masked.getD i 0 ≥ masked.getD j 0)
    candidates).take beamWidth

/-- One returned completion: its decoded token-id sequence and score. -/
structure Completion where
  tokens : List Nat
  score : ℚ
deriving Repr, DecidableEq

/-- Modelled from the spec: a decode call's returned completions.  Each
selected first-step token id is extended by the later, unconstrained steps —
abstracted as `continueFn`, since the spec's prefix constraint applies to the
very first decoded token only (spec §3 PrefixState, §4.2). -/
def decodeCompletions (prefixSuffix : String) (vocab : List String)
    (probs : List ℚ) (beamWidth : Nat)
    (continueFn : Nat → List Nat × ℚ) : List Completion :=
  (firstStepTokenIds prefixSuffix vocab probs beamWidth).map
    (fun i => { tokens := i :: (continueFn i).1, score := (continueFn i).2 })

/-- The decoder output record (spec §6): `EXIST_PREFIX`, `PREDICTED_SCORES`
of shape `[1, beam_width]`, `PREDICTED_TEXTS` of the same shape. -/
structure DecodeOutput where
  existFlag : Bool
  predicted_scores : List (List ℚ)
  predicted_texts : List (List String)
deriving Repr, DecidableEq

/-- Modelled from the spec: the Beam Search Driver's `TERMINATED` emission
(spec §4.4, §6; `beam_search.py` is not under `src/`): sort the surviving
beams best-first by score and emit their scores and decoded texts in that
shared order, with the batch dimension fixed at one example. -/
def emitOutput (flag : Bool) (beams : List (ℚ × String)) : DecodeOutput :=
  let sorted := List.insertionSort (fun a b => a.1 ≥ b.1) beams
  { existFlag := flag
  , predicted_scores := [sorted.map Prod.fst]
  , predicted_texts := [sorted.map Prod.snd] }

instance : IsTotal (ℚ × String) (fun a b => a.1 ≥ b.1) :=
  ⟨fun a b => le_total b.1 a.1⟩

instance : IsTrans (ℚ × String) (fun a b => a.1 ≥ b.1) :=
  ⟨fun _ _ _ h₁ h₂ => le_trans h₂ h₁⟩

/-- Modelled from the spec: the Length-Normalized Scorer (spec §4.3;
`beam_search.py` is not under `src/`): `finishedScore = cumulativeLogProb /
length ** lengthNormPower`, real-valued since the power is a float. -/
noncomputable def finishedScore (cumulativeLogProb : ℝ) (len : Nat)
    (lengthNormPower : ℝ) : ℝ :=
  cumulativeLogProb / (len : ℝ) ^ lengthNormPower

theorem dictGet_cons {V : Type} (p : String × V) (rest : List (String × V))
    (k : String) :
    dictGet (p :: rest) k = if p.1 == k then some p.2 else dictGet rest k := by
  by_cases h : p.1 == k
  · simp [dictGet, List.find?_cons_of_pos, h]
  · simp [dictGet, List.find?_cons_of_neg, h]

theorem dictGet_dictSet_self {V : Type} (d : List (String × V)) (k : String)
    (v : V) : dictGet (dictSet d k v) k = some v := by
  induction d with
  | nil => simp [dictSet, dictGet]
  | cons p rest ih =>
    by_cases h : p.1 == k
    · simp [dictSet, h, dictGet_cons]
    · simp [dictSet, h, dictGet_cons, ih]

theorem dictGet_dictSet_ne {V : Type} (d : List (String × V)) (k k' : String)
    (v : V) (hne : k' ≠ k) : dictGet (dictSet d k v) k' = dictGet d k' := by
  induction d with
  | nil => simp [dictSet, dictGet_cons, dictGet, Ne.symm hne]
  | cons p rest ih =>
    by_cases h : p.1 == k
    · have hp : p.1 = k := by simpa using h
      simp [dictSet, h, dictGet_cons, hp, hne, Ne.symm hne]
    · simp [dictSet, h, dictGet_cons, ih]

theorem any_key_of_dictGet {V : Type} (d : List (String × V)) (k : String)
    (v : V) (h : dictGet d k = some v) : d.any (fun p => p.1 == k) = true := by
  induction d with
  | nil => simp [dictGet] at h
  | cons p rest ih =>
    by_cases hp : p.1 == k
    · simp [hp]
    · rw [dictGet_cons] at h
      simp only [hp, if_neg, Bool.false_eq_true] at h
      simp [hp, ih h]

theorem dictSet_map_fst {V : Type} (d : List (String × V)) (k : String) (v : V)
    (h : d.any (fun p => p.1 == k) = true) :
    (dictSet d k v).map Prod.fst = d.map Prod.fst := by
  induction d with
  | nil => simp at h
  | cons p rest ih =>
    by_cases hp : p.1 == k
    · have hp' : p.1 = k := by simpa using hp
      simp [dictSet, hp, hp']
    · simp only [List.any_cons, hp, Bool.false_or] at h
      simp [dictSet, hp, ih h]

theorem tile_batch_singleton {α : Type} (x : α) (m : Nat) :
    tile_batch [x] m = List.replicate m x := by
  simp [tile_batch]

/-- C2 counterexample: the configuration `invalidConfig` violates every
validation rule the spec lists (`min_len > max_len`, `beam_width = -1`,
`max_decode_length = 0`, `min_seq_prob = 2`, `length_norm_power = -1`,
`vocab_size = 0`, out-of-range `sep_id`/`pad_id`), yet
`SmartComposeModel.__init__` completes normally and stores the invalid values
verbatim — no error is raised at construction time. -/
theorem init_accepts_invalid_config :
    specValidConfig invalidConfig = false ∧
    (SmartComposeModel.init invalidConfig).beam_width = -1 ∧
    (SmartComposeModel.init invalidConfig).max_decode_length = 0 ∧
    (SmartComposeModel.init invalidConfig).min_seq_prob = 2 ∧
    (SmartComposeModel.init invalidConfig).training_min_len = 5 ∧
    (SmartComposeModel.init invalidConfig).training_max_len = 2 := by
  refine ⟨?_, rfl, rfl, rfl, rfl, rfl⟩
  decide

/-- C2 (amended): `SmartComposeModel.__init__` performs no configuration
validation at all — every configuration, however invalid, is accepted, the
constructor returns normally (it is a total function), and the configuration
values are stored unchanged; errors from an invalid configuration can only
surface later, at decode time. -/
theorem init_total_stores_config (cfg : ModelConfig) :
    (SmartComposeModel.init cfg).beam_width = cfg.beam_width ∧
    (SmartComposeModel.init cfg).max_decode_length = cfg.max_decode_length ∧
    (SmartComposeModel.init cfg).min_seq_prob = cfg.min_seq_prob ∧
    (SmartComposeModel.init cfg).length_norm_power = cfg.length_norm_power ∧
    (SmartComposeModel.init cfg).training_min_len = cfg.min_len ∧
    (SmartComposeModel.init cfg).training_max_len = cfg.max_len ∧
    (SmartComposeModel.init cfg).vocab_size = cfg.vocab_size ∧
    (SmartComposeModel.init cfg).sep_id = cfg.sep_id ∧
    (SmartComposeModel.init cfg).pad_id = cfg.pad_id :=
  ⟨rfl, rfl, rfl, rfl, rfl, rfl, rfl, rfl, rfl⟩

/-- C8: the inference path always uses a minimum encoded length of exactly 1
and zero separator tokens (both as model attributes and as the parameters
handed to the beam searcher), the training path uses the caller-supplied
`min_len` with one separator token, and the beam-searcher parameters — hence
inference behaviour — are identical for any two values of the constructor's
`min_len`. -/
theorem inference_ignores_min_len (cfg : ModelConfig) (ml ml' : Int) :
    (SmartComposeModel.init cfg).searcher_params.min_len = 1 ∧
    (SmartComposeModel.init cfg).searcher_params.num_sep = 0 ∧
    (SmartComposeModel.init cfg).inference_min_len = 1 ∧
    (SmartComposeModel.init cfg).num_sep_inference = 0 ∧
    trainingEmbeddingArgs (SmartComposeModel.init cfg) =
      { num_cls := 1, num_sep := 1, min_len := cfg.min_len, max_len := cfg.max_len } ∧
    (SmartComposeModel.init { cfg with min_len := ml }).searcher_params =
      (SmartComposeModel.init { cfg with min_len := ml' }).searcher_params :=
  ⟨rfl, rfl, rfl, rfl, rfl, rfl⟩

/-- C9: `SmartComposeModel.call` returns exactly
`prefix_aware_beam_search(inputs)`; the `training` flag and the `mask` have no
influence on the output, so calling the model in training mode still performs
beam-search inference. -/
theorem call_ignores_training_and_mask {T R M : Type} (searcher : T → R)
    (target_column : String) (inputs : List (String × T))
    (t₁ t₂ : Bool) (m₁ m₂ : Option M) :
    SmartComposeModel.call searcher target_column inputs t₁ m₁ =
      prefix_aware_beam_search searcher target_column inputs ∧
    SmartComposeModel.call searcher target_column inputs t₁ m₁ =
      SmartComposeModel.call searcher target_column inputs t₂ m₂ :=
  ⟨rfl, rfl⟩

/-- C3: for every input token-id sequence, `get_initial_logits_and_cache_fn`
runs the full prefix through the recurrent cell once; the returned cache binds
`'last_state'` to a pair in which the final memory state and the final carry
state are each tiled `beam_width` times (`beam_width` identical copies, one
per beam), and the returned initial logits are the output projection of the
RNN output, likewise tiled `beam_width` times. -/
theorem initial_cache_tiles_state {E O S L : Type}
    (embedding_lookup : List Nat → E) (rnn : E → O × S × S)
    (projection_layer : O → L) (beam_width : Nat) (tokenized_ids : List Nat)
    (o : O) (m c : S) (h : rnn (embedding_lookup tokenized_ids) = (o, m, c)) :
    ∃ mems carrys : List S,
      dictGet (get_initial_logits_and_cache_fn embedding_lookup rnn
        projection_layer beam_width tokenized_ids).2 "last_state" =
          some (mems, carrys) ∧
      mems.length = beam_width ∧ carrys.length = beam_width ∧
      (∀ x ∈ mems, x = m) ∧ (∀ y ∈ carrys, y = c) ∧
      (get_initial_logits_and_cache_fn embedding_lookup rnn projection_layer
        beam_width tokenized_ids).1 =
          List.replicate beam_width (projection_layer o) := by
  refine ⟨List.replicate beam_width m, List.replicate beam_width c, ?_, ?_, ?_,
    ?_, ?_, ?_⟩
  · simp [get_initial_logits_and_cache_fn, h, tile_batch_singleton, dictGet]
  · simp
  · simp
  · intro x hx; exact List.eq_of_mem_replicate hx
  · intro y hy; exact List.eq_of_mem_replicate hy
  · simp [get_initial_logits_and_cache_fn, h, tile_batch_singleton]

/-- Witness for C3 at a concrete instantiation. -/
theorem initial_cache_tiles_state_witness :
    (fun n : Nat => (n * 5, n + 1, n + 2)) ((fun l : List Nat => l.length) [7, 8]) =
      (10, 3, 4) ∧
    (∃ mems carrys : List Nat,
      dictGet (get_initial_logits_and_cache_fn (fun l : List Nat => l.length)
        (fun n : Nat => (n * 5, n + 1, n + 2)) (fun n : Nat => n * 3) 2
        [7, 8]).2 "last_state" = some (mems, carrys) ∧
      mems.length = 2 ∧ carrys.length = 2 ∧
      (∀ x ∈ mems, x = 3) ∧ (∀ y ∈ carrys, y = 4) ∧
      (get_initial_logits_and_cache_fn (fun l : List Nat => l.length)
        (fun n : Nat => (n * 5, n + 1, n + 2)) (fun n : Nat => n * 3) 2
        [7, 8]).1 = List.replicate 2 30) :=
  ⟨rfl, initial_cache_tiles_state (fun l => l.length)
    (fun n => (n * 5, n + 1, n + 2)) (fun n => n * 3) 2 [7, 8] 10 3 4 rfl⟩

/-- C6: `get_logits_and_cache` returns the input cache with its
`'last_state'` entry replaced wholesale by the new state produced by the
recurrent cell; every other entry is unchanged, and the returned cache has
the same key structure as the input cache. -/
theorem step_cache_frame {E V O L : Type} (embedding_lookup1 : Nat → E)
    (cell : List E → V → O × V) (projection_layer : O → L)
    (ids : List (List Nat)) (i : Nat) (cache : Cache V) (st : V)
    (h : dictGet cache "last_state" = some st) :
    ∃ (logits : L) (cache' : Cache V),
      get_logits_and_cache embedding_lookup1 cell projection_layer ids i cache =
        some (logits, cache') ∧
      dictGet cache' "last_state" =
        some (cell ((ids.map (fun row => row.getD i 0)).map embedding_lookup1)
          st).2 ∧
      (∀ k, k ≠ "last_state" → dictGet cache' k = dictGet cache k) ∧
      cache'.map Prod.fst = cache.map Prod.fst := by
  refine ⟨projection_layer
      (cell ((ids.map (fun row => row.getD i 0)).map embedding_lookup1) st).1,
    dictSet cache "last_state"
      (cell ((ids.map (fun row => row.getD i 0)).map embedding_lookup1) st).2,
    ?_, ?_, ?_, ?_⟩
  · simp [get_logits_and_cache, h]
  · exact dictGet_dictSet_self cache "last_state" _
  · intro k hk; exact dictGet_dictSet_ne cache "last_state" k _ hk
  · exact dictSet_map_fst cache "last_state" _ (any_key_of_dictGet cache _ st h)

/-- Witness for C6 at a concrete instantiation. -/
theorem step_cache_frame_witness :
    dictGet [("last_state", 5), ("extra", 9)] "last_state" = some 5 ∧
    (∃ (logits : Nat) (cache' : Cache Nat),
      get_logits_and_cache (fun n => n + 1)
        (fun es v => (es.foldl (fun a b => a + b) v, v + 100))
        (fun n => n * 2) [[3, 4], [6, 7]] 1 [("last_state", 5), ("extra", 9)] =
          some (logits, cache') ∧
      dictGet cache' "last_state" =
        some ((fun (es : List Nat) (v : Nat) =>
          (es.foldl (fun a b => a + b) v, v + 100))
          (([[3, 4], [6, 7]].map (fun row => row.getD 1 0)).map (fun n => n + 1))
          5).2 ∧
      (∀ k, k ≠ "last_state" →
        dictGet cache' k = dictGet [("last_state", 5), ("extra", 9)] k) ∧
      cache'.map Prod.fst =
        [("last_state", 5), ("extra", 9)].map Prod.fst) :=
  ⟨rfl, step_cache_frame (fun n => n + 1)
    (fun es v => (es.foldl (fun a b => a + b) v, v + 100)) (fun n => n * 2)
    [[3, 4], [6, 7]] 1 [("last_state", 5), ("extra", 9)] 5 rfl⟩

/-- C7: `get_logits_and_cache` is a function of the current token column and
hidden state only — two calls whose id matrices agree on column `i` and whose
caches carry the same `'last_state'` value return the same logits and the
same new hidden state, however the id matrices differ at other columns and
the caches at other keys. -/
theorem step_depends_only_on_column_and_state {E V O L : Type}
    (embedding_lookup1 : Nat → E) (cell : List E → V → O × V)
    (projection_layer : O → L) (ids₁ ids₂ : List (List Nat)) (i : Nat)
    (c₁ c₂ : Cache V) (st : V)
    (hcol : ids₁.map (fun row => row.getD i 0) =
      ids₂.map (fun row => row.getD i 0))
    (h₁ : dictGet c₁ "last_state" = some st)
    (h₂ : dictGet c₂ "last_state" = some st) :
    Option.map Prod.fst
        (get_logits_and_cache embedding_lookup1 cell projection_layer ids₁ i c₁) =
      Option.map Prod.fst
        (get_logits_and_cache embedding_lookup1 cell projection_layer ids₂ i c₂) ∧
    Option.bind
        (get_logits_and_cache embedding_lookup1 cell projection_layer ids₁ i c₁)
        (fun r => dictGet r.2 "last_state") =
      Option.bind
        (get_logits_and_cache embedding_lookup1 cell projection_layer ids₂ i c₂)
        (fun r => dictGet r.2 "last_state") := by
  have hmap : (ids₁.map (fun row => row.getD i 0)).map embedding_lookup1 =
      (ids₂.map (fun row => row.getD i 0)).map embedding_lookup1 := by
    rw [hcol]
  constructor <;>
    simp only [get_logits_and_cache, h₁, h₂, hmap, Option.map_some',
      Option.some_bind, dictGet_dictSet_self]

/-- Witness for C7: the id matrices differ everywhere except column 1, and the
caches differ at another key, yet logits and new state agree. -/
theorem step_depends_only_on_column_and_state_witness :
    ([[3, 4], [6, 7]] : List (List Nat)).map (fun row => row.getD 1 0) =
      ([[30, 4, 40], [60, 7]] : List (List Nat)).map (fun row => row.getD 1 0) ∧
    dictGet [("last_state", 5), ("extra", 9)] "last_state" = some 5 ∧
    dictGet [("last_state", 5)] "last_state" = some 5 ∧
    (Option.map Prod.fst
        (get_logits_and_cache (fun n => n + 1)
          (fun (es : List Nat) (v : Nat) => (es.foldl (fun a b => a + b) v, v + 100))
          (fun n => n * 2) [[3, 4], [6, 7]] 1 [("last_state", 5), ("extra", 9)]) =
      Option.map Prod.fst
        (get_logits_and_cache (fun n => n + 1)
          (fun (es : List Nat) (v : Nat) => (es.foldl (fun a b => a + b) v, v + 100))
          (fun n => n * 2) [[30, 4, 40], [60, 7]] 1 [("last_state", 5)]) ∧
    Option.bind
        (get_logits_and_cache (fun n => n + 1)
          (fun (es : List Nat) (v : Nat) => (es.foldl (fun a b => a + b) v, v + 100))
          (fun n => n * 2) [[3, 4], [6, 7]] 1 [("last_state", 5), ("extra", 9)])
        (fun r => dictGet r.2 "last_state") =
      Option.bind
        (get_logits_and_cache (fun n => n + 1)
          (fun (es : List Nat) (v : Nat) => (es.foldl (fun a b => a + b) v, v + 100))
          (fun n => n * 2) [[30, 4, 40], [60, 7]] 1 [("last_state", 5)])
        (fun r => dictGet r.2 "last_state")) :=
  ⟨rfl, rfl, rfl, step_depends_only_on_column_and_state (fun n => n + 1)
    (fun es v => (es.foldl (fun a b => a + b) v, v + 100)) (fun n => n * 2)
    [[3, 4], [6, 7]] [[30, 4, 40], [60, 7]] 1
    [("last_state", 5), ("extra", 9)] [("last_state", 5)] 5 rfl rfl rfl⟩

theorem getD_map_drop {α : Type} (l : List (List α)) (b : Nat) :
    (l.map (fun row => row.drop 1)).getD b [] = (l.getD b []).drop 1 := by
  simp only [List.getD_eq_getElem?_getD, List.getElem?_map]
  cases l[b]? <;> simp

theorem getD_map_dropLast {α : Type} (l : List (List α)) (b : Nat) :
    (l.map (fun row => row.dropLast)).getD b [] = (l.getD b []).dropLast := by
  simp only [List.getD_eq_getElem?_getD, List.getElem?_map]
  cases l[b]? <;> simp

theorem getD_drop_one {α : Type} (row : List α) (j : Nat) (d : α) :
    (row.drop 1).getD j d = row.getD (j + 1) d := by
  simp [List.getD_eq_getElem?_getD, List.getElem?_drop, Nat.add_comm]

theorem getD_dropLast_of_lt {α : Type} (row : List α) (j : Nat) (d : α)
    (h : j + 1 < row.length) : row.dropLast.getD j d = row.getD j d := by
  simp only [List.getD_eq_getElem?_getD]
  rw [List.dropLast_eq_take, List.getElem?_take, if_pos (by omega)]

/-- C10: `get_training_probs_and_labels` returns `LABEL` equal to the
tokenized id sequences with each first token dropped, `LOGIT` equal to the
decoder's `rnn_output` with each last time step dropped — so the logit at
position `i` is aligned with (predicts) the token at position `i + 1` — and
`LENGTH` equal to the encoded sequence length minus one. -/
theorem training_labels_shifted {E L : Type}
    (embedding : List String → EmbeddingOutputs E)
    (decoder : List (List E) → List Int → DecoderOutputs L)
    (target_column : String) (inputs : List (String × List String))
    (sentences : List String) (d : L)
    (hs : dictGet inputs target_column = some sentences) :
    ∃ r, get_training_probs_and_labels embedding decoder target_column inputs =
        some r ∧
      r.label = (embedding sentences).tokenized_ids.map (fun row => row.drop 1) ∧
      r.logit = (decoder (embedding sentences).embedded
        (embedding sentences).length).rnn_output.map (fun row => row.dropLast) ∧
      r.length = (embedding sentences).length.map (fun n => n - 1) ∧
      (∀ b j, (r.label.getD b []).getD j 0 =
        ((embedding sentences).tokenized_ids.getD b []).getD (j + 1) 0) ∧
      (∀ b j, j + 1 < ((decoder (embedding sentences).embedded
          (embedding sentences).length).rnn_output.getD b []).length →
        (r.logit.getD b []).getD j d =
          ((decoder (embedding sentences).embedded
            (embedding sentences).length).rnn_output.getD b []).getD j d) := by
  refine ⟨{ label := (embedding sentences).tokenized_ids.map (fun row => row.drop 1)
          , logit := (decoder (embedding sentences).embedded
              (embedding sentences).length).rnn_output.map (fun row => row.dropLast)
          , length := (embedding sentences).length.map (fun n => n - 1)
          , rnn_output := (decoder (embedding sentences).embedded
              (embedding sentences).length).rnn_output
          , sample_id := (decoder (embedding sentences).embedded
              (embedding sentences).length).sample_id },
    ?_, rfl, rfl, rfl, ?_, ?_⟩
  · simp [get_training_probs_and_labels, hs]
  · intro b j
    rw [getD_map_drop, getD_drop_one]
  · intro b j hj
    rw [getD_map_dropLast, getD_dropLast_of_lt _ _ _ hj]

/-- Witness for C10 at a concrete instantiation. -/
theorem training_labels_shifted_witness :
    dictGet [("query", ["hi", "yo"])] "query" = some ["hi", "yo"] ∧
    (∃ r, get_training_probs_and_labels
        (fun _ : List String =>
          ({ embedded := [[1], [2]], length := [3, 2]
           , tokenized_ids := [[5, 6, 7], [8, 9]] } : EmbeddingOutputs Nat))
        (fun _ _ =>
          ({ rnn_output := [[10, 11, 12], [13, 14]]
           , sample_id := [[0], [1]] } : DecoderOutputs Nat))
        "query" [("query", ["hi", "yo"])] = some r ∧
      r.label = ([[5, 6, 7], [8, 9]] : List (List Nat)).map
        (fun row => row.drop 1) ∧
      r.logit = ([[10, 11, 12], [13, 14]] : List (List Nat)).map
        (fun row => row.dropLast) ∧
      r.length = ([3, 2] : List Int).map (fun n => n - 1) ∧
      (∀ b j, (r.label.getD b []).getD j 0 =
        (([[5, 6, 7], [8, 9]] : List (List Nat)).getD b []).getD (j + 1) 0) ∧
      (∀ b j, j + 1 < (([[10, 11, 12], [13, 14]] : List (List Nat)).getD b
          []).length →
        (r.logit.getD b []).getD j 0 =
          (([[10, 11, 12], [13, 14]] : List (List Nat)).getD b []).getD j 0)) :=
  ⟨rfl, training_labels_shifted
    (fun _ => { embedded := [[1], [2]], length := [3, 2]
              , tokenized_ids := [[5, 6, 7], [8, 9]] })
    (fun _ _ => { rnn_output := [[10, 11, 12], [13, 14]]
                , sample_id := [[0], [1]] })
    "query" [("query", ["hi", "yo"])] ["hi", "yo"] 0 rfl⟩

theorem legal_of_maskProbs_pos (prefixSuffix : String) (vocab : List String)
    (probs : List ℚ) (i : Nat)
    (h : 0 < (maskProbs (buildMask prefixSuffix vocab) probs).getD i 0) :
    i < vocab.length ∧ is_legal prefixSuffix (vocab.getD i "") = true := by
  by_cases hi : i < (maskProbs (buildMask prefixSuffix vocab) probs).length
  · have hlen : (maskProbs (buildMask prefixSuffix vocab) probs).length =
        min vocab.length probs.length := by
      simp [maskProbs, buildMask]
    have hiv : i < vocab.length := by omega
    have hip : i < probs.length := by omega
    have him : i < (buildMask prefixSuffix vocab).length := by
      simp [buildMask]; omega
    rw [List.getD_eq_getElem?_getD, List.getElem?_eq_getElem hi,
      Option.getD_some] at h
    simp only [maskProbs] at h
    rw [List.getElem_zipWith] at h
    by_cases hm : (buildMask prefixSuffix vocab)[i] = true
    · refine ⟨hiv, ?_⟩
      have : (buildMask prefixSuffix vocab)[i] =
          is_legal prefixSuffix vocab[i] := by
        simp [buildMask]
      rw [List.getD_eq_getElem?_getD, List.getElem?_eq_getElem hiv]
      simp only [Option.getD_some]
      rw [← this]
      exact hm
    · rw [Bool.not_eq_true] at hm
      rw [hm] at h
      simp at h
  · rw [List.getD_eq_getElem?_getD, List.getElem?_eq_none (by omega)] at h
    simp at h

/-- C1: on a decode call whose `EXIST_PREFIX` flag is true, every returned
completion's first decoded token is consistent with the user's typed partial
prefix — its string form is a textual prefix of the unmatched prefix suffix,
or the prefix suffix is a textual prefix of the token's string form. -/
theorem first_token_consistent (prefixSuffix : String) (vocab : List String)
    (probs : List ℚ) (beamWidth : Nat) (continueFn : Nat → List Nat × ℚ)
    (hEx : existPrefixFlag prefixSuffix vocab = true) :
    ∀ compl ∈ decodeCompletions prefixSuffix vocab probs beamWidth continueFn,
      ∃ t rest, compl.tokens = t :: rest ∧ t < vocab.length ∧
        is_legal prefixSuffix (vocab.getD t "") = true := by
  intro compl hc
  simp only [decodeCompletions, List.mem_map] at hc
  obtain ⟨i, hi, rfl⟩ := hc
  simp only [firstStepTokenIds] at hi
  have h1 := List.take_subset _ _ hi
  have h2 := (List.perm_insertionSort
    (fun i j => (maskProbs (buildMask prefixSuffix vocab) probs).getD i 0 ≥
      (maskProbs (buildMask prefixSuffix vocab) probs).getD j 0) _).mem_iff.mp h1
  rw [List.mem_filter] at h2
  obtain ⟨hrange, hpos⟩ := h2
  have hpos' : 0 < (maskProbs (buildMask prefixSuffix vocab) probs).getD i 0 :=
    of_decide_eq_true hpos
  exact ⟨i, (continueFn i).1, rfl, List.mem_range.mp hrange,
    (legal_of_maskProbs_pos prefixSuffix vocab probs i hpos').2⟩

/-- Witness for C1 on the spec's own scenario: vocabulary `the, there, then,
end`, typed prefix `th`, beam width 2; `end` is masked out and the returned
first tokens are all consistent with `th`. -/
theorem first_token_consistent_witness :
    existPrefixFlag "th" ["the", "there", "then", "end"] = true ∧
    (∃ t rest, (Completion.mk [0, 10] 1).tokens = t :: rest ∧
      t < (["the", "there", "then", "end"] : List String).length ∧
      is_legal "th" ((["the", "there", "then", "end"] : List String).getD t "") =
        true) :=
  ⟨by decide, first_token_consistent "th" ["the", "there", "then", "end"]
    [8, 4, 2, 1] 2 (fun i => ([i + 10], 1)) (by decide)
    (Completion.mk [0, 10] 1) (by decide)⟩

/-- C5: the emitted decode record for the single-example batch contains an
`EXIST_PREFIX` boolean, `PREDICTED_SCORES` of shape `[1, beam_width]` sorted
best-first, and `PREDICTED_TEXTS` of the same shape carrying the texts in the
same order (scores and texts are projections of one sorted beam list). -/
theorem decoder_output_contract (flag : Bool) (beams : List (ℚ × String))
    (bw : Nat) (hlen : beams.length = bw) :
    (emitOutput flag beams).existFlag = flag ∧
    (emitOutput flag beams).predicted_scores.length = 1 ∧
    (emitOutput flag beams).predicted_texts.length = 1 ∧
    ∃ sorted : List (ℚ × String),
      sorted.Perm beams ∧
      (emitOutput flag beams).predicted_scores = [sorted.map Prod.fst] ∧
      (emitOutput flag beams).predicted_texts = [sorted.map Prod.snd] ∧
      (sorted.map Prod.fst).length = bw ∧
      (sorted.map Prod.snd).length = bw ∧
      ((emitOutput flag beams).predicted_scores.getD 0 []).Sorted
        (fun a b => a ≥ b) := by
  refine ⟨rfl, rfl, rfl,
    List.insertionSort (fun a b => a.1 ≥ b.1) beams,
    List.perm_insertionSort _ beams, rfl, rfl, ?_, ?_, ?_⟩
  · rw [List.length_map, (List.perm_insertionSort _ beams).length_eq, hlen]
  · rw [List.length_map, (List.perm_insertionSort _ beams).length_eq, hlen]
  · have hs := List.sorted_insertionSort
      (fun (a b : ℚ × String) => a.1 ≥ b.1) beams
    simpa [emitOutput] using
      List.Pairwise.map Prod.fst (fun a b hab => hab) hs

/-- Witness for C5 at a concrete two-beam batch. -/
theorem decoder_output_contract_witness :
    ([(1, "a"), (2, "b")] : List (ℚ × String)).length = 2 ∧
    ((emitOutput true [(1, "a"), (2, "b")]).existFlag = true ∧
     (emitOutput true [(1, "a"), (2, "b")]).predicted_scores.length = 1 ∧
     (emitOutput true [(1, "a"), (2, "b")]).predicted_texts.length = 1 ∧
     ∃ sorted : List (ℚ × String),
       sorted.Perm [(1, "a"), (2, "b")] ∧
       (emitOutput true [(1, "a"), (2, "b")]).predicted_scores =
         [sorted.map Prod.fst] ∧
       (emitOutput true [(1, "a"), (2, "b")]).predicted_texts =
         [sorted.map Prod.snd] ∧
       (sorted.map Prod.fst).length = 2 ∧
       (sorted.map Prod.snd).length = 2 ∧
       ((emitOutput true [(1, "a"), (2, "b")]).predicted_scores.getD 0
         []).Sorted (fun a b => a ≥ b)) :=
  ⟨rfl, decoder_output_contract true [(1, "a"), (2, "b")] 2 rfl⟩

/-- C4 counterexample: for an actual log-probability (a negative cumulative
value, here `-2` over a 2-token completion), raising `lengthNormPower` from 0
to 1 strictly INCREASES the finished score (`-2 < -1`), contradicting the
claimed strict decrease. -/
theorem finishedScore_increases_on_neg :
    finishedScore (-2) 2 0 < finishedScore (-2) 2 1 := by
  unfold finishedScore
  rw [Real.rpow_zero, Real.rpow_one]
  norm_num

/-- C4 (amended): a finished beam's score is `cumulativeLogProb /
length ** lengthNormPower`; with `lengthNormPower = 0` it equals the raw
cumulative log-probability, single-token completions are unchanged for every
power, and — holding `cumulativeLogProb` and length fixed — increasing
`lengthNormPower` from 0 to a positive value strictly decreases the score's
absolute value for every completion longer than one token with nonzero
cumulative log-probability; since real cumulative log-probabilities are
negative, the signed score strictly increases. -/
theorem finishedScore_norm_monotone (c : ℝ) (len : Nat) (p : ℝ) :
    finishedScore c len 0 = c ∧
    finishedScore c 1 p = c ∧
    (c < 0 → 1 < len → 0 < p →
      finishedScore c len 0 < finishedScore c len p ∧
      |finishedScore c len p| < |finishedScore c len 0|) := by
  have h0 : finishedScore c len 0 = c := by
    unfold finishedScore
    rw [Real.rpow_zero, div_one]
  refine ⟨h0, ?_, ?_⟩
  · unfold finishedScore
    rw [Nat.cast_one, Real.one_rpow, div_one]
  · intro hc hlen hp
    have hL : (1 : ℝ) < (len : ℝ) := by exact_mod_cast hlen
    have hpow : (1 : ℝ) < (len : ℝ) ^ p :=
      (Real.one_lt_rpow_iff_of_pos (by linarith)).mpr (Or.inl ⟨hL, hp⟩)
    have hpowpos : (0 : ℝ) < (len : ℝ) ^ p := by linarith
    constructor
    · rw [h0]
      unfold finishedScore
      rw [lt_div_iff₀ hpowpos]
      calc c * (len : ℝ) ^ p < c * 1 := mul_lt_mul_of_neg_left hpow hc
        _ = c := mul_one c
    · rw [h0]
      unfold finishedScore
      rw [abs_div, abs_of_pos hpowpos]
      exact div_lt_self (abs_pos.mpr (ne_of_lt hc)) hpow

/-- Witness for C4's amended statement at `c = -2`, `len = 2`, `p = 1`. -/
theorem finishedScore_norm_monotone_witness :
    (-2 : ℝ) < 0 ∧ 1 < 2 ∧ (0 : ℝ) < 1 ∧
    (finishedScore (-2) 2 0 < finishedScore (-2) 2 1 ∧
      |finishedScore (-2) 2 1| < |finishedScore (-2) 2 0|) :=
  ⟨by norm_num, by norm_num, by norm_num,
    (finishedScore_norm_monotone (-2) 2 1).2.2 (by norm_num) (by norm_num)
      (by norm_num)⟩

end SmartCompose
